import Mathlib

/-!
# Verification of the maint-schedule service-due calculation engine

Shallow embedding of the core calculation engine of the maint-schedule
repository (`src/models/*.py`), together with theorems settling the frozen
claims about it.

Modelling conventions:
* Python floats (mileages, intervals, costs, thresholds) are modelled as `ℚ`.
  The arithmetic the engine performs on them (addition, subtraction,
  comparison, multiplication by 30, `int(...)` truncation) is exact on the
  values of interest, so `ℚ` is a faithful model.
* Python `datetime.date` values are modelled as `PyDate` (year/month/day).
  History entries store dates as ISO `YYYY-MM-DD` strings in the source; their
  lexicographic string order coincides with the componentwise
  (year, month, day) order used here, and `date.fromisoformat` round-trips
  them, so dates are carried in structured form.
* `date.today()` (an ambient clock read inside `Vehicle.as_of_date`) is made
  explicit: the functions that consult it take a `today : PyDate` argument.
* Python truthiness on optional floats (`x or y`, `if due_miles`) is embedded
  explicitly: `none` and `some 0` are falsy.
-/

namespace MaintSchedule

/-- The `Status` enum from `src/models/status.py`. Lower value = more urgent. -/
inductive Status where
  | overdue
  | dueSoon
  | ok
  | inactive
  | unknown
deriving DecidableEq, Repr

/-- Numeric value of each `Status` member (`OVERDUE = 1`, ..., `UNKNOWN = 5`). -/
def Status.value : Status → Nat
  | .overdue => 1
  | .dueSoon => 2
  | .ok => 3
  | .inactive => 4
  | .unknown => 5

/-- A Python `datetime.date`: proleptic Gregorian calendar date. -/
structure PyDate where
  year : Nat
  month : Nat
  day : Nat
deriving DecidableEq, Repr

/-- Gregorian leap-year test, as in Python's `calendar.isleap`. -/
def isLeap (y : Nat) : Bool :=
  y % 4 == 0 && (y % 100 != 0 || y % 400 == 0)

/-- Number of days in a month of a given year. -/
def daysInMonth (y m : Nat) : Nat :=
  if m = 2 then (if isLeap y then 29 else 28)
  else if m = 4 ∨ m = 6 ∨ m = 9 ∨ m = 11 then 30
  else 31

/-- Days in year `y` strictly before month `m`. -/
def daysBeforeMonth (y m : Nat) : Nat :=
  (List.range (m - 1)).foldl (fun acc i => acc + daysInMonth y (i + 1)) 0

/-- The `datetime.date.toordinal`: day number with 0001-01-01 ↦ 1. -/
def PyDate.toordinal (d : PyDate) : Nat :=
  365 * (d.year - 1) + (d.year - 1) / 4 - (d.year - 1) / 100 + (d.year - 1) / 400
    + daysBeforeMonth d.year d.month + d.day

/-- The day after `d` (Gregorian successor). -/
def PyDate.nextDay (d : PyDate) : PyDate :=
  if d.day < daysInMonth d.year d.month then ⟨d.year, d.month, d.day + 1⟩
  else if d.month < 12 then ⟨d.year, d.month + 1, 1⟩
  else ⟨d.year + 1, 1, 1⟩

/-- The day before `d` (Gregorian predecessor). -/
def PyDate.prevDay (d : PyDate) : PyDate :=
  if 1 < d.day then ⟨d.year, d.month, d.day - 1⟩
  else if 1 < d.month then ⟨d.year, d.month - 1, daysInMonth d.year (d.month - 1)⟩
  else ⟨d.year - 1, 12, 31⟩

/-- The `d + timedelta(days=n)` (signed day shift). -/
def PyDate.addDays (d : PyDate) (n : Int) : PyDate :=
  if 0 ≤ n then PyDate.nextDay^[n.toNat] d else PyDate.prevDay^[(-n).toNat] d

/-- The `d + relativedelta(months=m)`: month arithmetic with Python floor
division/modulo on the zero-based month, clamping the day to the length of
the target month (dateutil's behaviour). -/
def PyDate.addMonths (d : PyDate) (m : Int) : PyDate :=
  let month0 : Int := (d.month : Int) - 1 + m
  let year : Nat := ((d.year : Int) + month0.fdiv 12).toNat
  let month : Nat := (month0.emod 12).toNat + 1
  ⟨year, month, min d.day (daysInMonth year month)⟩

/-- Python `int(x)` on a float: truncation toward zero. -/
def pyInt (q : ℚ) : Int :=
  Int.tdiv q.num q.den

/-- Python `a or b` on optional floats: `a` unless `a` is falsy
(`None` or `0`), in which case `b`. -/
def pyOr (a b : Option ℚ) : Option ℚ :=
  match a with
  | none => b
  | some x => if x = 0 then b else some x

/-- The `calc_due_miles` from `src/models/calculations.py`. -/
def calc_due_miles (last_miles interval : Option ℚ) (start_miles : ℚ) : Option ℚ :=
  match interval with
  | none => none
  | some i =>
    match last_miles with
    | some lm => some (lm + i)
    | none => some (start_miles + i)

/-- The `calc_due_date` from `src/models/calculations.py`:
`last_date + relativedelta(months=int(im), days=int((im - int(im)) * 30))`. -/
def calc_due_date (last_date : Option PyDate) (interval_months : Option ℚ) : Option PyDate :=
  match interval_months, last_date with
  | some im, some d =>
    let months : Int := pyInt im
    let days : Int := pyInt ((im - months) * 30)
    some ((d.addMonths months).addDays days)
  | _, _ => none

/-- The `check_status` from `src/models/calculations.py`. -/
def check_status (current due soon_threshold : ℚ) : Status :=
  if current ≥ due then .overdue
  else if current ≥ due - soon_threshold then .dueSoon
  else .ok

/-- The `Rule` from `src/models/rule.py` (attribute record after construction). -/
structure Rule where
  item : String
  verb : String
  phase : Option String := none
  interval_miles : Option ℚ := none
  interval_months : Option ℚ := none
  severe_interval_miles : Option ℚ := none
  severe_interval_months : Option ℚ := none
  notes : Option String := none
  start_miles : ℚ := 0
  stop_miles : ℚ := 999999999
  start_months : ℚ := 0
  stop_months : ℚ := 9999
  aftermarket : Bool := false
deriving DecidableEq, Repr

/-- The `Rule.key`: `item/verb` or `item/verb/phase`. -/
def Rule.key (r : Rule) : String :=
  match r.phase with
  | some p => r.item ++ "/" ++ r.verb ++ "/" ++ p
  | none => r.item ++ "/" ++ r.verb

/-- The `Rule.base_key`: `item/verb`, phase stripped. -/
def Rule.baseKey (r : Rule) : String :=
  r.item ++ "/" ++ r.verb

/-- The `Rule.is_active_at`: `start_miles <= miles < stop_miles`. -/
def Rule.is_active_at (r : Rule) (miles : ℚ) : Bool :=
  decide (r.start_miles ≤ miles ∧ miles < r.stop_miles)

/-- The `HistoryEntry` from `src/models/history_entry.py`. The source stores
`date` as an ISO `YYYY-MM-DD` string; it is carried in structured form here
(string lexicographic order = componentwise date order for such strings). -/
structure HistoryEntry where
  rule_key : String
  date : PyDate
  mileage : Option ℚ := none
  performed_by : Option String := none
  notes : Option String := none
  cost : Option ℚ := none
deriving DecidableEq, Repr

/-- The `Car` from `src/models/car.py`. -/
structure Car where
  make : String
  model : String
  trim : Option String := none
  year : Int
  purchase_date : PyDate
  purchase_miles : ℚ
deriving DecidableEq, Repr

/-- The `ServiceDue` dataclass from `src/models/service_due.py`; every optional
field defaults to `None`. -/
structure ServiceDue where
  rule : Rule
  status : Status
  last_service_miles : Option ℚ := none
  last_service_date : Option PyDate := none
  due_miles : Option ℚ := none
  due_date : Option PyDate := none
  severe_due_miles : Option ℚ := none
  severe_due_date : Option PyDate := none
  miles_remaining : Option ℚ := none
  time_remaining_days : Option Int := none
deriving DecidableEq, Repr

/-- The `ServiceDue.is_due`: OVERDUE or DUE_SOON. -/
def ServiceDue.isDue (s : ServiceDue) : Bool :=
  s.status == .overdue || s.status == .dueSoon

/-- The `Vehicle` from `src/models/vehicle.py` (constructed state). -/
structure Vehicle where
  car : Car
  rules : List Rule
  history : List HistoryEntry := []
  state_as_of_date : Option PyDate := none
  state_current_miles : Option ℚ := none

/-- Python's `str.startswith`. -/
def pyStartswith (p s : String) : Bool :=
  p.data.isPrefixOf s.data

/-- Python's `max(h :: t, key=...)` where `lt a b` means "a's key < b's key":
scans left to right, replacing the best only on a strictly greater key, so
the first maximizer is returned. -/
def pyMax {α : Type} (lt : α → α → Bool) (h : α) (t : List α) : α :=
  t.foldl (fun best x => if lt best x then x else best) h

/-- Lexicographic order on dates, = Python's comparison of the stored ISO
date strings. -/
def dateLt (a b : PyDate) : Bool :=
  decide (a.year < b.year ∨ (a.year = b.year ∧
    (a.month < b.month ∨ (a.month = b.month ∧ a.day < b.day))))

/-- Python's comparison of `(h.date, h.mileage)` tuples (date primary,
mileage tiebreaker); used only on entries whose mileage is present. -/
def dateMileLt (a b : HistoryEntry) : Bool :=
  dateLt a.date b.date ||
    (a.date == b.date && decide (a.mileage.getD 0 < b.mileage.getD 0))

/-- Comparison of entries by date alone (`key=lambda h: h.date`). -/
def dateOnlyLt (a b : HistoryEntry) : Bool :=
  dateLt a.date b.date

/-- The `Vehicle.current_miles`: explicit state override, else the max mileage
across history entries that carry one, else `car.purchase_miles`. -/
def Vehicle.current_miles (v : Vehicle) : ℚ :=
  match v.state_current_miles with
  | some m => m
  | none =>
    match v.history.filterMap (·.mileage) with
    | [] => v.car.purchase_miles
    | m :: ms => pyMax (fun a b => decide (a < b)) m ms

/-- The `Vehicle.as_of_date`: explicit state override, else `date.today()`
(the ambient clock, passed explicitly as `today`). -/
def Vehicle.as_of_date (v : Vehicle) (today : PyDate) : PyDate :=
  v.state_as_of_date.getD today

/-- The `Vehicle.get_last_service_for_item`: prefix-match history entries on
`"{item}/{verb}"`, prefer entries with mileage (max by `(date, mileage)`),
else max by date. -/
def Vehicle.get_last_service_for_item (v : Vehicle) (item verb : String) :
    Option HistoryEntry :=
  let base_key := item ++ "/" ++ verb
  let matching := v.history.filter (fun h => pyStartswith base_key h.rule_key)
  match matching with
  | [] => none
  | m :: ms =>
    match matching.filter (fun h => h.mileage.isSome) with
    | [] => some (pyMax dateOnlyLt m ms)
    | w :: ws => some (pyMax dateMileLt w ws)

/-- Interval selection for the mileage axis (step 4 of the engine):
`severe_interval_miles or interval_miles` under severe mode. -/
def selIntervalMiles (r : Rule) (severe : Bool) : Option ℚ :=
  if severe then pyOr r.severe_interval_miles r.interval_miles
  else r.interval_miles

/-- Interval selection for the time axis (step 4 of the engine). -/
def selIntervalMonths (r : Rule) (severe : Bool) : Option ℚ :=
  if severe then pyOr r.severe_interval_months r.interval_months
  else r.interval_months

/-- The status-determination block of `calculate_service_due`
(`src/models/vehicle.py`, "Determine status"): UNKNOWN when nothing is
computable, else the miles classification escalated by the date
classification when the latter is numerically more urgent. -/
def dueStatus (current_miles : ℚ) (current_date : PyDate)
    (due_soon_miles due_soon_months : ℚ)
    (due_miles : Option ℚ) (due_date : Option PyDate) : Status :=
  if due_miles = none ∧ due_date = none then Status.unknown
  else
    let s1 :=
      match due_miles with
      | none => Status.ok
      | some dm => check_status current_miles dm due_soon_miles
    match due_date with
    | none => s1
    | some dd =>
      let date_status := check_status (current_date.toordinal : ℚ)
        (dd.toordinal : ℚ) ((pyInt (due_soon_months * 30) : Int) : ℚ)
      if date_status.value < s1.value then date_status else s1

/-- The `miles_remaining` line of `calculate_service_due`:
`(due_miles - current_miles) if due_miles else None` — Python truthiness, so
both `None` and `0` produce `None`. -/
def milesRemainingOf (due_miles : Option ℚ) (current_miles : ℚ) : Option ℚ :=
  match due_miles with
  | none => none
  | some dm => if dm = 0 then none else some (dm - current_miles)

/-- The `Vehicle.calculate_service_due` from `src/models/vehicle.py`: the status
state machine. `today` is the ambient clock consulted by `as_of_date`. -/
def Vehicle.calculate_service_due (v : Vehicle) (today : PyDate) (rule : Rule)
    (due_soon_miles : ℚ := 1000) (due_soon_months : ℚ := 1)
    (severe : Bool := false) : ServiceDue :=
  let current_miles := v.current_miles
  let current_date := v.as_of_date today
  if ¬ rule.is_active_at current_miles then
    { rule := rule, status := .inactive }
  else
    let last_service := v.get_last_service_for_item rule.item rule.verb
    let last_miles := last_service.bind (·.mileage)
    let last_date := last_service.map (·.date)
    let interval_miles := selIntervalMiles rule severe
    let interval_months := selIntervalMonths rule severe
    let due_miles := calc_due_miles last_miles interval_miles rule.start_miles
    let due_date := calc_due_date last_date interval_months
    { rule := rule
      status := dueStatus current_miles current_date due_soon_miles
        due_soon_months due_miles due_date
      last_service_miles := last_miles
      last_service_date := last_date
      due_miles := due_miles
      due_date := due_date
      severe_due_miles := none
      severe_due_date := none
      miles_remaining := milesRemainingOf due_miles current_miles }

/-- The `Vehicle.get_all_service_status` from `src/models/vehicle.py`: one
`calculate_service_due` per rule, in list order. The source signature takes
only `(due_soon_miles, due_soon_months, severe)`. -/
def Vehicle.get_all_service_status (v : Vehicle) (today : PyDate)
    (due_soon_miles : ℚ := 1000) (due_soon_months : ℚ := 1)
    (severe : Bool := false) : List ServiceDue :=
  v.rules.map (fun rule =>
    v.calculate_service_due today rule due_soon_miles due_soon_months severe)

/-! ## Claim-side definitions -/

/-- Holds when a's key is at most b's key, for the date-only comparison. -/
def dateLe (a b : PyDate) : Prop :=
  a = b ∨ dateLt a b = true

/-- Holds when a's (date, mileage) key is at most b's, for the
mileage-preferring comparison. -/
def dateMileLe (a b : HistoryEntry) : Prop :=
  (a.date = b.date ∧ a.mileage.getD 0 = b.mileage.getD 0) ∨ dateMileLt a b = true

/-- The more urgent (lower `value`) of two statuses. -/
def statusMin (a b : Status) : Status :=
  if a.value ≤ b.value then a else b

/-- The mileage-axis classification of the claims: the mileage
classification, treated as OK when `due_miles` is absent. -/
def milesAxisStatus (current_miles due_soon_miles : ℚ) : Option ℚ → Status
  | none => Status.ok
  | some dm => check_status current_miles dm due_soon_miles

/-- The date-axis classification of the claims: the date classification with
the exact (non-truncated) day threshold `due_soon_months * 30`, treated as OK
when `due_date` is absent. -/
def dateAxisStatus (current_date : PyDate) (due_soon_months : ℚ) :
    Option PyDate → Status
  | none => Status.ok
  | some dd => check_status (current_date.toordinal : ℚ) (dd.toordinal : ℚ)
      (due_soon_months * 30)

/-- Executable floor of a rational (equal to `⌊·⌋`). -/
def ratFloor (q : ℚ) : Int :=
  Int.ediv q.num q.den

/-- Round to the nearest integer, used to read the spec's word "round"
(the dispute point below is tie-free, so the tie convention is irrelevant). -/
def roundNearest (q : ℚ) : Int :=
  ratFloor (q + mkRat 1 2)

/-- The due-date computation as the spec sentence words it:
`last_date + whole_months(interval_months) + remainder_days`, with
`whole_months = floor(interval_months)` and
`remainder_days = round((interval_months − whole_months) × 30)`.
Written only to be compared against the source's `calc_due_date`. -/
def calcDueDateSpec (last_date : Option PyDate) (interval_months : Option ℚ) :
    Option PyDate :=
  match interval_months, last_date with
  | some im, some d =>
    let months : Int := ratFloor im
    let days : Int := roundNearest ((im - months) * 30)
    some ((d.addMonths months).addDays days)
  | _, _ => none

/-! ## Concrete fixtures for counterexamples and witnesses -/

/-- A car used by the concrete vehicles below. -/
def stockCar : Car :=
  { make := "Subaru", model := "WRX", trim := some "Limited",
    year := 2012, purchase_date := ⟨2012, 3, 23⟩, purchase_miles := 6 }

def c1Rule : Rule :=
  { item := "oil", verb := "replace",
    interval_miles := some 7500, interval_months := some 6 }

def c1Vehicle : Vehicle :=
  { car := stockCar, rules := [c1Rule],
    history := [{ rule_key := "oil/replace", date := ⟨2025, 1, 15⟩,
                  mileage := some 90000 }],
    state_as_of_date := some ⟨2025, 3, 15⟩, state_current_miles := some 91000 }

def c3Rule : Rule :=
  { item := "widget", verb := "replace", interval_miles := some 0 }

def c3Vehicle : Vehicle :=
  { car := stockCar, rules := [c3Rule], history := [],
    state_as_of_date := some ⟨2025, 1, 1⟩, state_current_miles := some 0 }

def c3wRule : Rule :=
  { item := "oil", verb := "replace", interval_miles := some 7500 }

def c3wEntry : HistoryEntry :=
  { rule_key := "oil/replace", date := ⟨2025, 1, 15⟩, mileage := some 94500 }

def c3wVehicle : Vehicle :=
  { car := stockCar, rules := [c3wRule], history := [c3wEntry],
    state_as_of_date := some ⟨2025, 2, 1⟩, state_current_miles := some 96000 }

def c5Rule : Rule :=
  { item := "oil", verb := "replace",
    interval_miles := some 7500, interval_months := some (mkRat 15 2) }

def c5Vehicle : Vehicle :=
  { car := stockCar, rules := [c5Rule],
    history := [{ rule_key := "oil/replace", date := ⟨2024, 1, 15⟩,
                  mileage := some 90000 }],
    state_as_of_date := some ⟨2025, 1, 15⟩, state_current_miles := some 91000 }

def c6Rule : Rule :=
  { item := "timing belt", verb := "replace", start_miles := 5, stop_miles := 5 }

def c6wRule : Rule :=
  { item := "turbo", verb := "replace",
    interval_miles := some 10000, start_miles := 60000 }

def c6wVehicle : Vehicle :=
  { car := stockCar, rules := [c6wRule], history := [],
    state_as_of_date := some ⟨2025, 1, 1⟩, state_current_miles := some 50000 }

def c7Entry1 : HistoryEntry :=
  { rule_key := "coolant/replace/initial", date := ⟨2020, 1, 1⟩,
    mileage := some 30000 }

def c7Entry2 : HistoryEntry :=
  { rule_key := "coolant/replace/ongoing", date := ⟨2022, 6, 1⟩,
    mileage := some 60000 }

def c7Entry3 : HistoryEntry :=
  { rule_key := "brakes/inspect", date := ⟨2023, 1, 1⟩, mileage := some 70000 }

def c7Vehicle : Vehicle :=
  { car := stockCar, rules := [],
    history := [c7Entry1, c7Entry2, c7Entry3],
    state_as_of_date := some ⟨2025, 1, 1⟩, state_current_miles := some 80000 }

def c8Rule : Rule :=
  { item := "battery", verb := "replace", interval_months := some 12 }

def c8Vehicle : Vehicle :=
  { car := stockCar, rules := [c8Rule], history := [],
    state_as_of_date := some ⟨2025, 1, 1⟩, state_current_miles := some 1000 }

def c9Rule : Rule :=
  { item := "oil", verb := "replace",
    interval_miles := some 7500, interval_months := some 6,
    severe_interval_months := some 3 }

def c9Vehicle : Vehicle :=
  { car := stockCar, rules := [c9Rule],
    history := [{ rule_key := "oil/replace", date := ⟨2024, 6, 1⟩,
                  mileage := some 80000 }],
    state_as_of_date := some ⟨2024, 9, 1⟩, state_current_miles := some 84000 }

def c10Rule : Rule :=
  { item := "oil", verb := "replace", interval_miles := some 7500 }

def c10Entry : HistoryEntry :=
  { rule_key := "oil/replaced", date := ⟨2024, 5, 1⟩, mileage := some 50000 }

def c10Vehicle : Vehicle :=
  { car := stockCar, rules := [c10Rule], history := [c10Entry],
    state_as_of_date := some ⟨2024, 8, 1⟩, state_current_miles := some 52000 }

def c10bEntry : HistoryEntry :=
  { rule_key := "brakes/inspect", date := ⟨2024, 5, 1⟩, mileage := some 50000 }

def c10bVehicle : Vehicle :=
  { car := stockCar, rules := [c10Rule], history := [c10bEntry],
    state_as_of_date := some ⟨2024, 8, 1⟩, state_current_miles := some 52000 }

/-! ## General lemmas about the embedding -/

/-- An inactive rule short-circuits to an all-defaults INACTIVE record. -/
theorem calculate_service_due_inactive (v : Vehicle) (today : PyDate) (r : Rule)
    (d m : ℚ) (s : Bool) (hact : r.is_active_at v.current_miles = false) :
    v.calculate_service_due today r d m s = { rule := r, status := .inactive } := by
  unfold Vehicle.calculate_service_due
  rw [if_pos]
  simp [hact]

/-- An active rule produces the record built from the lookup and the
due-point helpers. -/
theorem calculate_service_due_active (v : Vehicle) (today : PyDate) (r : Rule)
    (d m : ℚ) (s : Bool) (hact : r.is_active_at v.current_miles = true) :
    v.calculate_service_due today r d m s =
      { rule := r
        status := dueStatus v.current_miles (v.as_of_date today) d m
          (calc_due_miles ((v.get_last_service_for_item r.item r.verb).bind (·.mileage))
            (selIntervalMiles r s) r.start_miles)
          (calc_due_date ((v.get_last_service_for_item r.item r.verb).map (·.date))
            (selIntervalMonths r s))
        last_service_miles := (v.get_last_service_for_item r.item r.verb).bind (·.mileage)
        last_service_date := (v.get_last_service_for_item r.item r.verb).map (·.date)
        due_miles := calc_due_miles
          ((v.get_last_service_for_item r.item r.verb).bind (·.mileage))
          (selIntervalMiles r s) r.start_miles
        due_date := calc_due_date
          ((v.get_last_service_for_item r.item r.verb).map (·.date))
          (selIntervalMonths r s)
        severe_due_miles := none
        severe_due_date := none
        miles_remaining := milesRemainingOf
          (calc_due_miles ((v.get_last_service_for_item r.item r.verb).bind (·.mileage))
            (selIntervalMiles r s) r.start_miles) v.current_miles } := by
  unfold Vehicle.calculate_service_due
  rw [if_neg]
  simp [hact]

/-- The `check_status` only classifies into the three urgency outcomes. -/
theorem check_status_mem (current due t : ℚ) :
    check_status current due t = .overdue ∨ check_status current due t = .dueSoon ∨
      check_status current due t = .ok := by
  unfold check_status
  by_cases h1 : current ≥ due
  · simp [h1]
  · by_cases h2 : current ≥ due - t
    · simp [h1, h2]
    · simp [h1, h2]

/-- The result of `pyMax` is one of the inputs. -/
theorem pyMax_mem {α : Type} (lt : α → α → Bool) (h : α) (t : List α) :
    pyMax lt h t ∈ h :: t := by
  suffices H : ∀ (t : List α) (b : α), pyMax lt b t = b ∨ pyMax lt b t ∈ t by
    rcases H t h with h' | h'
    · rw [h']; exact List.mem_cons_self _ _
    · exact List.mem_cons_of_mem _ h'
  intro t
  induction t with
  | nil => intro b; left; rfl
  | cons x xs ih =>
    intro b
    have hstep : pyMax lt b (x :: xs) = pyMax lt (if lt b x then x else b) xs := rfl
    rcases ih (if lt b x then x else b) with h' | h'
    · rw [hstep, h']
      by_cases hbx : lt b x = true
      · right; rw [if_pos hbx]; exact List.mem_cons_self _ _
      · left; rw [if_neg hbx]
    · right; rw [hstep]; exact List.mem_cons_of_mem _ h'

/-- The `pyMax` attains the maximum: no input is strictly greater, provided `lt`
is irreflexive and transitive in the two needed senses. -/
theorem pyMax_not_lt {α : Type} (lt : α → α → Bool)
    (irrefl : ∀ a, lt a a = false)
    (trans : ∀ a b c, lt a b = true → lt b c = true → lt a c = true)
    (trans2 : ∀ a b c, lt a b = true → lt c b = false → lt a c = true)
    (h : α) (t : List α) :
    ∀ x ∈ h :: t, lt (pyMax lt h t) x = false := by
  suffices H : ∀ (t : List α) (b : α),
      lt (pyMax lt b t) b = false ∧ ∀ x ∈ t, lt (pyMax lt b t) x = false by
    intro x hx
    rcases List.mem_cons.mp hx with rfl | hx
    · exact (H t x).1
    · exact (H t h).2 x hx
  intro t
  induction t with
  | nil => intro b; exact ⟨irrefl b, by simp⟩
  | cons x xs ih =>
    intro b
    have step : pyMax lt b (x :: xs) = pyMax lt (if lt b x then x else b) xs := rfl
    rcases ih (if lt b x then x else b) with ⟨ih1, ih2⟩
    by_cases hbx : lt b x = true
    · rw [if_pos hbx] at ih1 ih2
      refine ⟨?_, ?_⟩
      · rw [step, if_pos hbx]
        by_cases hMb : lt (pyMax lt x xs) b = true
        · have := trans _ _ _ hMb hbx
          rw [this] at ih1
          exact absurd ih1 (by simp)
        · simpa using hMb
      · intro y hy
        rcases List.mem_cons.mp hy with rfl | hy
        · rw [step, if_pos hbx]; exact ih1
        · rw [step, if_pos hbx]; exact ih2 y hy
    · have hbx' : lt b x = false := by simpa using hbx
      rw [if_neg (by simp [hbx'])] at ih1 ih2
      refine ⟨?_, ?_⟩
      · rw [step, if_neg (by simp [hbx'])]; exact ih1
      · intro y hy
        rcases List.mem_cons.mp hy with rfl | hy
        · rw [step, if_neg (by simp [hbx'])]
          by_cases hMy : lt (pyMax lt b xs) y = true
          · have := trans2 _ _ _ hMy hbx'
            rw [this] at ih1
            exact absurd ih1 (by simp)
          · simpa using hMy
        · rw [step, if_neg (by simp [hbx'])]; exact ih2 y hy

/-- Propositional form of `dateLt`. -/
theorem dateLt_iff (a b : PyDate) :
    dateLt a b = true ↔ (a.year < b.year ∨ (a.year = b.year ∧
      (a.month < b.month ∨ (a.month = b.month ∧ a.day < b.day)))) := by
  simp [dateLt]

theorem dateLt_irrefl (a : PyDate) : dateLt a a = false := by
  simp [dateLt]

theorem dateLt_trans (a b c : PyDate) (h1 : dateLt a b = true)
    (h2 : dateLt b c = true) : dateLt a c = true := by
  rw [dateLt_iff] at *
  omega

theorem dateLt_total (a b : PyDate) :
    dateLt a b = true ∨ a = b ∨ dateLt b a = true := by
  obtain ⟨ay, am, ad⟩ := a
  obtain ⟨eby, bm, bd⟩ := b
  simp only [dateLt_iff, PyDate.mk.injEq]
  omega

theorem dateLt_trans2 (a b c : PyDate) (h1 : dateLt a b = true)
    (h2 : dateLt c b = false) : dateLt a c = true := by
  rcases dateLt_total a c with h | h | h
  · exact h
  · subst h; rw [h1] at h2; exact absurd h2 (by simp)
  · have := dateLt_trans c a b h h1
    rw [this] at h2; exact absurd h2 (by simp)

theorem dateOnlyLt_irrefl (a : HistoryEntry) : dateOnlyLt a a = false :=
  dateLt_irrefl a.date

theorem dateOnlyLt_trans (a b c : HistoryEntry) (h1 : dateOnlyLt a b = true)
    (h2 : dateOnlyLt b c = true) : dateOnlyLt a c = true :=
  dateLt_trans _ _ _ h1 h2

theorem dateOnlyLt_trans2 (a b c : HistoryEntry) (h1 : dateOnlyLt a b = true)
    (h2 : dateOnlyLt c b = false) : dateOnlyLt a c = true :=
  dateLt_trans2 _ _ _ h1 h2

/-- Propositional form of `dateMileLt`. -/
theorem dateMileLt_iff (a b : HistoryEntry) :
    dateMileLt a b = true ↔ (dateLt a.date b.date = true ∨
      (a.date = b.date ∧ a.mileage.getD 0 < b.mileage.getD 0)) := by
  simp [dateMileLt]

theorem dateMileLt_irrefl (a : HistoryEntry) : dateMileLt a a = false := by
  simp [dateMileLt, dateLt_irrefl]

theorem dateMileLt_trans (a b c : HistoryEntry) (h1 : dateMileLt a b = true)
    (h2 : dateMileLt b c = true) : dateMileLt a c = true := by
  rw [dateMileLt_iff] at *
  rcases h1 with h1 | ⟨h1e, h1m⟩
  · rcases h2 with h2 | ⟨h2e, h2m⟩
    · exact Or.inl (dateLt_trans _ _ _ h1 h2)
    · exact Or.inl (h2e ▸ h1)
  · rcases h2 with h2 | ⟨h2e, h2m⟩
    · exact Or.inl (h1e ▸ h2)
    · exact Or.inr ⟨h1e.trans h2e, lt_trans h1m h2m⟩

theorem dateMileLt_total (a b : HistoryEntry) :
    dateMileLt a b = true ∨
      (a.date = b.date ∧ a.mileage.getD 0 = b.mileage.getD 0) ∨
      dateMileLt b a = true := by
  rw [dateMileLt_iff, dateMileLt_iff]
  rcases dateLt_total a.date b.date with h | h | h
  · exact Or.inl (Or.inl h)
  · rcases lt_trichotomy (a.mileage.getD 0) (b.mileage.getD 0) with hm | hm | hm
    · exact Or.inl (Or.inr ⟨h, hm⟩)
    · exact Or.inr (Or.inl ⟨h, hm⟩)
    · exact Or.inr (Or.inr (Or.inr ⟨h.symm, hm⟩))
  · exact Or.inr (Or.inr (Or.inl h))

theorem dateMileLt_trans2 (a b c : HistoryEntry) (h1 : dateMileLt a b = true)
    (h2 : dateMileLt c b = false) : dateMileLt a c = true := by
  rcases dateMileLt_total a c with h | ⟨he, hm⟩ | h
  · exact h
  · have : dateMileLt c b = true := by
      rw [dateMileLt_iff] at h1 ⊢
      rcases h1 with h1 | ⟨h1e, h1m⟩
      · exact Or.inl (he ▸ h1)
      · exact Or.inr ⟨he ▸ h1e, hm ▸ h1m⟩
    rw [this] at h2; exact absurd h2 (by simp)
  · have := dateMileLt_trans c a b h h1
    rw [this] at h2; exact absurd h2 (by simp)

theorem not_dateLt_iff (a b : PyDate) : dateLt b a = false ↔ dateLe a b := by
  constructor
  · intro h
    rcases dateLt_total a b with h' | h' | h'
    · exact Or.inr h'
    · exact Or.inl h'
    · rw [h'] at h; exact absurd h (by simp)
  · rintro (rfl | h)
    · exact dateLt_irrefl a
    · by_cases hba : dateLt b a = true
      · have := dateLt_trans _ _ _ h hba
        rw [dateLt_irrefl] at this
        exact absurd this (by simp)
      · simpa using hba

theorem not_dateMileLt_iff (a b : HistoryEntry) :
    dateMileLt b a = false ↔ dateMileLe a b := by
  constructor
  · intro h
    rcases dateMileLt_total a b with h' | h' | h'
    · exact Or.inr h'
    · exact Or.inl h'
    · rw [h'] at h; exact absurd h (by simp)
  · rintro (⟨he, hm⟩ | h)
    · have hfalse : ¬ (dateMileLt b a = true) := by
        rw [dateMileLt_iff]
        rintro (h | ⟨h1, h2⟩)
        · rw [← he] at h
          rw [dateLt_irrefl] at h
          exact absurd h (by simp)
        · rw [hm] at h2
          exact absurd h2 (lt_irrefl _)
      simpa using hfalse
    · by_cases hba : dateMileLt b a = true
      · have := dateMileLt_trans _ _ _ h hba
        rw [dateMileLt_irrefl] at this
        exact absurd this (by simp)
      · simpa using hba

/-- Python `int()` truncation agrees with `⌊·⌋` on non-negative rationals. -/
theorem pyInt_eq_floor (q : ℚ) (h : 0 ≤ q) : pyInt q = ⌊q⌋ := by
  rw [Rat.floor_def]
  exact Int.tdiv_eq_ediv (Rat.num_nonneg.mpr h) (Int.ofNat_nonneg _)

/-- Python `int()` of a negative rational is non-positive. -/
theorem pyInt_nonpos (q : ℚ) (h : q < 0) : pyInt q ≤ 0 := by
  unfold pyInt
  have hn : 0 ≤ -q.num := by
    have := Rat.num_nonneg.mpr (le_of_lt (neg_pos.mpr h))
    simpa using this
  have := Int.tdiv_nonneg hn (Int.ofNat_nonneg q.den)
  rw [Int.neg_tdiv] at this
  omega

/-- On integer-valued current/due axes the truncation of the threshold
through `int()` does not change the classification. -/
theorem check_status_trunc (c du : Nat) (t : ℚ) :
    check_status (c : ℚ) (du : ℚ) ((pyInt t : ℤ) : ℚ) =
      check_status (c : ℚ) (du : ℚ) t := by
  unfold check_status
  by_cases h1 : (c : ℚ) ≥ du
  · rw [if_pos h1, if_pos h1]
  · rw [if_neg h1, if_neg h1]
    rcases le_or_lt 0 t with ht | ht
    · rw [pyInt_eq_floor t ht]
      by_cases h2 : (c : ℚ) ≥ du - t
      · rw [if_pos h2, if_pos ?_]
        have key : ((du : ℤ) - c : ℤ) ≤ ⌊t⌋ := by
          rw [Int.le_floor]
          push_cast
          linarith
        have : ((du : ℚ)) - c ≤ ((⌊t⌋ : ℤ) : ℚ) := by exact_mod_cast key
        linarith
      · rw [if_neg h2, if_neg ?_]
        intro hcon
        have hfl : ((⌊t⌋ : ℤ) : ℚ) ≤ t := Int.floor_le t
        exact h2 (by linarith)
    · have hcd : (c : ℚ) < du := lt_of_not_ge h1
      have hpi : (pyInt t : ℚ) ≤ 0 := by
        have := pyInt_nonpos t ht
        exact_mod_cast this
      rw [if_neg ?_, if_neg ?_]
      · intro hcon; linarith
      · intro hcon; linarith

/-- The status block never yields INACTIVE. -/
theorem dueStatus_ne_inactive (cm : ℚ) (cd : PyDate) (d m : ℚ)
    (dm : Option ℚ) (dd : Option PyDate) :
    dueStatus cm cd d m dm dd ≠ .inactive := by
  rcases dm with _ | dmv <;> rcases dd with _ | ddv
  · simp [dueStatus]
  · unfold dueStatus
    rw [if_neg (by simp)]
    show (if _ then _ else _) ≠ _
    split
    · rcases check_status_mem (cd.toordinal : ℚ) (ddv.toordinal : ℚ)
        (((pyInt (m * 30)) : ℤ) : ℚ) with h | h | h <;> simp [h]
    · simp
  · unfold dueStatus
    rw [if_neg (by simp)]
    show check_status cm dmv d ≠ _
    rcases check_status_mem cm dmv d with h | h | h <;> simp [h]
  · unfold dueStatus
    rw [if_neg (by simp)]
    show (if _ then _ else _) ≠ _
    split
    · rcases check_status_mem (cd.toordinal : ℚ) (ddv.toordinal : ℚ)
        (((pyInt (m * 30)) : ℤ) : ℚ) with h | h | h <;> simp [h]
    · rcases check_status_mem cm dmv d with h | h | h <;> simp [h]

/-- The source's escalation `if date_status.value < s1.value then date_status
else s1` agrees with `statusMin` on classification outcomes. -/
theorem statusMin_escalate (s1 ds : Status)
    (h1 : s1 = .overdue ∨ s1 = .dueSoon ∨ s1 = .ok)
    (h2 : ds = .overdue ∨ ds = .dueSoon ∨ ds = .ok) :
    (if ds.value < s1.value then ds else s1) = statusMin s1 ds := by
  rcases h1 with rfl | rfl | rfl <;> rcases h2 with rfl | rfl | rfl <;> rfl

/-- The status block computes the worse of the two axis classifications,
with the date threshold read exactly (the `int()` truncation of
`due_soon_months * 30` is invisible on integer ordinals). -/
theorem dueStatus_eq_statusMin (cm : ℚ) (cd : PyDate) (d m : ℚ)
    (dm : Option ℚ) (dd : Option PyDate) (h : dm ≠ none ∨ dd ≠ none) :
    dueStatus cm cd d m dm dd =
      statusMin (milesAxisStatus cm d dm) (dateAxisStatus cd m dd) := by
  rcases dm with _ | dmv <;> rcases dd with _ | ddv
  · simp at h
  · unfold dueStatus
    rw [if_neg (by simp)]
    show (if _ then _ else _) = _
    rw [show check_status (cd.toordinal : ℚ) (ddv.toordinal : ℚ)
        (((pyInt (m * 30)) : ℤ) : ℚ) =
        check_status (cd.toordinal : ℚ) (ddv.toordinal : ℚ) (m * 30) from
      check_status_trunc cd.toordinal ddv.toordinal (m * 30)]
    exact statusMin_escalate _ _ (Or.inr (Or.inr rfl))
      (check_status_mem _ _ _)
  · unfold dueStatus
    rw [if_neg (by simp)]
    show check_status cm dmv d = statusMin (check_status cm dmv d) Status.ok
    rcases check_status_mem cm dmv d with h' | h' | h' <;> rw [h'] <;> rfl
  · unfold dueStatus
    rw [if_neg (by simp)]
    show (if _ then _ else _) = _
    rw [show check_status (cd.toordinal : ℚ) (ddv.toordinal : ℚ)
        (((pyInt (m * 30)) : ℤ) : ℚ) =
        check_status (cd.toordinal : ℚ) (ddv.toordinal : ℚ) (m * 30) from
      check_status_trunc cd.toordinal ddv.toordinal (m * 30)]
    exact statusMin_escalate _ _ (check_status_mem _ _ _) (check_status_mem _ _ _)

/-! ## Claims -/

/-- C1. The claim states that `Vehicle.calculate_service_due` populates
`time_remaining_days` with `due_date_ordinal - current_date_ordinal` whenever
`due_date` is not `None`. The source never assigns this field (it stays at
its dataclass default `None`), although the repository's own unit tests
(`test_vehicle.py::test_time_remaining_calculation`) assert a populated
value from this very call. At the test's input the engine computes a
`due_date` of 2025-07-15 against a current date of 2025-03-15 (an ordinal
difference of 122 days) yet returns `time_remaining_days = None`. -/
theorem C1_time_remaining_not_populated :
    (c1Vehicle.calculate_service_due ⟨2025, 3, 15⟩ c1Rule 1000 1 false).due_date =
      some ⟨2025, 7, 15⟩ ∧
    (c1Vehicle.calculate_service_due ⟨2025, 3, 15⟩ c1Rule 1000 1 false).time_remaining_days =
      none ∧
    ((⟨2025, 7, 15⟩ : PyDate).toordinal : Int) -
      ((⟨2025, 3, 15⟩ : PyDate).toordinal : Int) = 122 := by
  refine ⟨?_, ?_, by decide⟩ <;>
  · simp only [c1Vehicle, c1Rule, stockCar, Vehicle.calculate_service_due,
      Vehicle.current_miles, Vehicle.as_of_date, Vehicle.get_last_service_for_item,
      selIntervalMiles, selIntervalMonths, calc_due_miles, calc_due_date,
      dueStatus, milesRemainingOf, check_status, pyInt, pyOr, pyStartswith, pyMax,
      dateMileLt, dateOnlyLt, dateLt, Rat.add_def', Rat.sub_def', Rat.mul_def,
      Rat.normalize_eq_mkRat]
    decide

/-- C2. `Vehicle.get_all_service_status` returns one `calculate_service_due`
result per rule, in list order, with no skipping: the source signature has no
`exclude_verbs` parameter at all (its in-repo callers `maint.py` and
`web/app.py` pass one and would fail). -/
theorem C2_per_rule_in_order (v : Vehicle) (today : PyDate) (d m : ℚ)
    (s : Bool) (i : Nat) :
    (v.get_all_service_status today d m s).length = v.rules.length ∧
    (v.get_all_service_status today d m s)[i]? =
      (v.rules[i]?.map fun r => v.calculate_service_due today r d m s) := by
  constructor
  · simp [Vehicle.get_all_service_status]
  · simp [Vehicle.get_all_service_status]

/-- C3 counterexample. The claim asserts
`miles_remaining = due_miles - current_miles` whenever `due_miles` is not
`None`; but the source guards with Python truthiness (`if due_miles`), so a
rule with `interval_miles = 0`, no history and `start_miles = 0` produces
`due_miles = 0` (not `None`) with `miles_remaining = None`, not
`some (0 - current_miles)`. -/
theorem C3_counterexample :
    (c3Vehicle.calculate_service_due ⟨2025, 1, 1⟩ c3Rule 1000 1 false).due_miles =
      some 0 ∧
    (c3Vehicle.calculate_service_due ⟨2025, 1, 1⟩ c3Rule 1000 1 false).miles_remaining =
      none ∧
    (c3Vehicle.calculate_service_due ⟨2025, 1, 1⟩ c3Rule 1000 1 false).miles_remaining ≠
      some ((0 : ℚ) - c3Vehicle.current_miles) := by
  refine ⟨?_, ?_, ?_⟩ <;>
  · simp only [c3Vehicle, c3Rule, stockCar, Vehicle.calculate_service_due,
      Vehicle.current_miles, Vehicle.as_of_date, Vehicle.get_last_service_for_item,
      selIntervalMiles, selIntervalMonths, calc_due_miles, calc_due_date,
      dueStatus, milesRemainingOf, check_status, pyInt, pyOr, pyStartswith, pyMax,
      dateMileLt, dateOnlyLt, dateLt, Rat.add_def', Rat.sub_def', Rat.mul_def,
      Rat.normalize_eq_mkRat]
    decide

/-- C3 amended. For every rule active at the current mileage whose selected
mileage interval is `some i`: with a matched last-service entry carrying
mileage `mq`, `due_miles = mq + i`; with no matched entry or a matched entry
without mileage, `due_miles = start_miles + i`; and
`miles_remaining = due_miles - current_miles` whenever `due_miles` is not
`None` **and not zero**, while a `None` or zero `due_miles` yields
`miles_remaining = None` (Python truthiness). -/
theorem C3_due_miles_and_remaining (v : Vehicle) (today : PyDate) (r : Rule)
    (d m : ℚ) (s : Bool) (i : ℚ)
    (hact : r.is_active_at v.current_miles = true)
    (hI : selIntervalMiles r s = some i) :
    (∀ e, v.get_last_service_for_item r.item r.verb = some e →
      (∀ mq, e.mileage = some mq →
        (v.calculate_service_due today r d m s).due_miles = some (mq + i)) ∧
      (e.mileage = none →
        (v.calculate_service_due today r d m s).due_miles = some (r.start_miles + i))) ∧
    (v.get_last_service_for_item r.item r.verb = none →
      (v.calculate_service_due today r d m s).due_miles = some (r.start_miles + i)) ∧
    (∀ dm, (v.calculate_service_due today r d m s).due_miles = some dm → dm ≠ 0 →
      (v.calculate_service_due today r d m s).miles_remaining =
        some (dm - v.current_miles)) ∧
    ((v.calculate_service_due today r d m s).due_miles = none ∨
      (v.calculate_service_due today r d m s).due_miles = some 0 →
      (v.calculate_service_due today r d m s).miles_remaining = none) := by
  rw [calculate_service_due_active v today r d m s hact]
  simp only [hI]
  refine ⟨?_, ?_, ?_, ?_⟩
  · intro e he
    constructor
    · intro mq hmq
      simp [he, calc_due_miles, hmq]
    · intro hmq
      simp [he, calc_due_miles, hmq]
  · intro he
    simp [he, calc_due_miles]
  · intro dm hdm hne
    simp only [milesRemainingOf]
    rcases hcase : calc_due_miles
        ((v.get_last_service_for_item r.item r.verb).bind (·.mileage))
        (some i) r.start_miles with _ | dm'
    · rw [hcase] at hdm; exact absurd hdm (by simp)
    · rw [hcase] at hdm
      have : dm' = dm := by simpa using hdm
      subst this
      simp [hne]
  · intro hcase
    rcases hcase with hnone | hzero
    · simp only [milesRemainingOf]
      rcases hc : calc_due_miles
          ((v.get_last_service_for_item r.item r.verb).bind (·.mileage))
          (some i) r.start_miles with _ | dm'
      · rfl
      · rw [hc] at hnone; exact absurd hnone (by simp)
    · simp only [milesRemainingOf]
      rcases hc : calc_due_miles
          ((v.get_last_service_for_item r.item r.verb).bind (·.mileage))
          (some i) r.start_miles with _ | dm'
      · rfl
      · rw [hc] at hzero
        have : dm' = 0 := by simpa using hzero
        simp [this]

/-- C3 witness: concrete application of the amended theorem. -/
theorem C3_witness :
    (c3wVehicle.calculate_service_due ⟨2025, 2, 1⟩ c3wRule 1000 1 false).due_miles =
      some (94500 + 7500) ∧
    (c3wVehicle.calculate_service_due ⟨2025, 2, 1⟩ c3wRule 1000 1 false).miles_remaining =
      some ((94500 + 7500) - c3wVehicle.current_miles) := by
  have H := C3_due_miles_and_remaining c3wVehicle ⟨2025, 2, 1⟩ c3wRule 1000 1 false
    7500 (by decide) (by decide)
  obtain ⟨h1, _, h3, _⟩ := H
  have he : c3wVehicle.get_last_service_for_item c3wRule.item c3wRule.verb =
      some c3wEntry := by decide
  have hd := (h1 c3wEntry he).1 94500 (by decide)
  exact ⟨hd, h3 (94500 + 7500) hd (by norm_num)⟩

/-- C4 counterexample. The claim reads the remainder-days conversion as
`round((interval_months − whole_months) × 30)`; the source truncates with
`int(...)`. At `interval_months = 7.52` (the fractional part contributes
`0.52 × 30 = 15.6` days) the source advances Jan 15 2024 by 7 months and 15
days to Aug 30, while the claimed rounding would give 16 days, i.e. Aug 31. -/
theorem C4_counterexample :
    calc_due_date (some ⟨2024, 1, 15⟩) (some (mkRat 188 25)) = some ⟨2024, 8, 30⟩ ∧
    calcDueDateSpec (some ⟨2024, 1, 15⟩) (some (mkRat 188 25)) = some ⟨2024, 8, 31⟩ ∧
    (⟨2024, 8, 30⟩ : PyDate) ≠ ⟨2024, 8, 31⟩ := by
  refine ⟨?_, ?_, by decide⟩
  · simp only [calc_due_date, pyInt, Rat.sub_def', Rat.mul_def,
      Rat.normalize_eq_mkRat]
    decide
  · simp only [calcDueDateSpec, ratFloor, roundNearest, Rat.sub_def', Rat.mul_def,
      Rat.add_def', Rat.normalize_eq_mkRat]
    decide

/-- C4 amended. For every `last_date` and non-negative `interval_months`,
`calc_due_date` advances by `whole_months = floor(interval_months)` calendar
months (calendar-correct, with day clamping) plus
`remainder_days = floor((interval_months − whole_months) × 30)` days — the
remainder is truncated, not rounded; it returns `None` iff `last_date` or
`interval_months` is absent; and Jan 15 2024 + 7.5 months = Aug 30 2024. -/
theorem C4_floor_months_and_days (d : PyDate) (q : ℚ) (hq : 0 ≤ q) :
    calc_due_date (some d) (some q) =
      some ((d.addMonths ⌊q⌋).addDays ⌊(q - ((⌊q⌋ : ℤ) : ℚ)) * 30⌋) ∧
    (∀ (ld : Option PyDate) (im : Option ℚ),
      (calc_due_date ld im = none ↔ ld = none ∨ im = none)) ∧
    calc_due_date (some ⟨2024, 1, 15⟩) (some (mkRat 15 2)) = some ⟨2024, 8, 30⟩ := by
  refine ⟨?_, ?_, ?_⟩
  · show some ((d.addMonths (pyInt q)).addDays
      (pyInt ((q - ((pyInt q : ℤ) : ℚ)) * 30))) = _
    rw [pyInt_eq_floor q hq]
    rw [pyInt_eq_floor _ (mul_nonneg (sub_nonneg.mpr (Int.floor_le q)) (by norm_num))]
  · intro ld im
    cases ld <;> cases im <;> simp [calc_due_date]
  · simp only [calc_due_date, pyInt, Rat.sub_def', Rat.mul_def,
      Rat.normalize_eq_mkRat]
    decide

/-- C4 witness: concrete application of the amended theorem at 7.5 months. -/
theorem C4_witness :
    0 ≤ (mkRat 15 2 : ℚ) ∧
    calc_due_date (some ⟨2025, 1, 15⟩) (some (mkRat 15 2)) =
      some (((⟨2025, 1, 15⟩ : PyDate).addMonths ⌊(mkRat 15 2 : ℚ)⌋).addDays
        ⌊((mkRat 15 2 : ℚ) - ((⌊(mkRat 15 2 : ℚ)⌋ : ℤ) : ℚ)) * 30⌋) :=
  ⟨by decide, (C4_floor_months_and_days ⟨2025, 1, 15⟩ (mkRat 15 2) (by decide)).1⟩

/-- C5. For every active rule where at least one due point exists, the
resulting status is the more urgent (lower `value`) of the mileage
classification (OK when `due_miles` is `None`) and the date classification
with the exact day threshold `due_soon_months * 30` (OK when `due_date` is
`None`); in particular one OK axis and one OVERDUE axis give OVERDUE, and
two OK axes give OK. -/
theorem C5_worse_of_two (v : Vehicle) (today : PyDate) (r : Rule) (d m : ℚ)
    (s : Bool)
    (hact : r.is_active_at v.current_miles = true)
    (hsome : (v.calculate_service_due today r d m s).due_miles ≠ none ∨
      (v.calculate_service_due today r d m s).due_date ≠ none) :
    (v.calculate_service_due today r d m s).status =
      statusMin
        (milesAxisStatus v.current_miles d
          (v.calculate_service_due today r d m s).due_miles)
        (dateAxisStatus (v.as_of_date today) m
          (v.calculate_service_due today r d m s).due_date) ∧
    (milesAxisStatus v.current_miles d
        (v.calculate_service_due today r d m s).due_miles = .ok →
      dateAxisStatus (v.as_of_date today) m
        (v.calculate_service_due today r d m s).due_date = .overdue →
      (v.calculate_service_due today r d m s).status = .overdue) ∧
    (dateAxisStatus (v.as_of_date today) m
        (v.calculate_service_due today r d m s).due_date = .ok →
      milesAxisStatus v.current_miles d
        (v.calculate_service_due today r d m s).due_miles = .overdue →
      (v.calculate_service_due today r d m s).status = .overdue) ∧
    (milesAxisStatus v.current_miles d
        (v.calculate_service_due today r d m s).due_miles = .ok →
      dateAxisStatus (v.as_of_date today) m
        (v.calculate_service_due today r d m s).due_date = .ok →
      (v.calculate_service_due today r d m s).status = .ok) := by
  have hrec := calculate_service_due_active v today r d m s hact
  rw [hrec] at hsome ⊢
  simp only at hsome ⊢
  have hmain := dueStatus_eq_statusMin v.current_miles (v.as_of_date today) d m
    (calc_due_miles ((v.get_last_service_for_item r.item r.verb).bind (·.mileage))
      (selIntervalMiles r s) r.start_miles)
    (calc_due_date ((v.get_last_service_for_item r.item r.verb).map (·.date))
      (selIntervalMonths r s)) hsome
  refine ⟨hmain, ?_, ?_, ?_⟩
  · intro hm hd; rw [hmain, hm, hd]; rfl
  · intro hd hm; rw [hmain, hm, hd]; rfl
  · intro hm hd; rw [hmain, hm, hd]; rfl

/-- C5 witness: the spec's "overdue by date despite mileage OK" scenario —
interval 7500 mi / 7.5 months, last service 2024-01-15 @ 90000, current
91000 mi on 2025-01-15: the mileage axis is OK, the date axis OVERDUE, and
the combined status is their `statusMin`, i.e. OVERDUE. -/
theorem C5_witness :
    (c5Vehicle.calculate_service_due ⟨2025, 1, 15⟩ c5Rule 1000 1 false).status =
      statusMin
        (milesAxisStatus c5Vehicle.current_miles 1000
          (c5Vehicle.calculate_service_due ⟨2025, 1, 15⟩ c5Rule 1000 1 false).due_miles)
        (dateAxisStatus (c5Vehicle.as_of_date ⟨2025, 1, 15⟩) 1
          (c5Vehicle.calculate_service_due ⟨2025, 1, 15⟩ c5Rule 1000 1 false).due_date) ∧
    (c5Vehicle.calculate_service_due ⟨2025, 1, 15⟩ c5Rule 1000 1 false).status =
      .overdue := by
  have H := C5_worse_of_two c5Vehicle ⟨2025, 1, 15⟩ c5Rule 1000 1 false
    (by decide)
    (Or.inl (by
      simp only [c5Vehicle, c5Rule, stockCar, Vehicle.calculate_service_due,
        Vehicle.current_miles, Vehicle.as_of_date, Vehicle.get_last_service_for_item,
        selIntervalMiles, selIntervalMonths, calc_due_miles, calc_due_date,
        dueStatus, milesRemainingOf, check_status, pyInt, pyOr, pyStartswith, pyMax,
        dateMileLt, dateOnlyLt, dateLt, Rat.add_def', Rat.sub_def', Rat.mul_def,
        Rat.normalize_eq_mkRat]
      decide))
  refine ⟨H.1, H.2.1 ?_ ?_⟩
  · simp only [c5Vehicle, c5Rule, stockCar, Vehicle.calculate_service_due,
      Vehicle.current_miles, Vehicle.as_of_date, Vehicle.get_last_service_for_item,
      selIntervalMiles, selIntervalMonths, calc_due_miles, calc_due_date,
      dueStatus, milesRemainingOf, milesAxisStatus, check_status, pyInt, pyOr,
      pyStartswith, pyMax, dateMileLt, dateOnlyLt, dateLt, Rat.add_def',
      Rat.sub_def', Rat.mul_def, Rat.normalize_eq_mkRat]
    decide
  · simp only [c5Vehicle, c5Rule, stockCar, Vehicle.calculate_service_due,
      Vehicle.current_miles, Vehicle.as_of_date, Vehicle.get_last_service_for_item,
      selIntervalMiles, selIntervalMonths, calc_due_miles, calc_due_date,
      dueStatus, milesRemainingOf, dateAxisStatus, check_status, pyInt, pyOr,
      pyStartswith, pyMax, dateMileLt, dateOnlyLt, dateLt, Rat.add_def',
      Rat.sub_def', Rat.mul_def, Rat.normalize_eq_mkRat]
    decide

/-- C6 counterexample. The claim asserts unconditionally that
`is_active_at(start_miles)` is true; for a degenerate (empty) window with
`start_miles = stop_miles` — which does not fall under the claim's own
`start_miles > stop_miles` escape clause — it is false. -/
theorem C6_counterexample :
    c6Rule.start_miles ≤ c6Rule.stop_miles ∧
    c6Rule.is_active_at c6Rule.start_miles = false := by
  decide

/-- C6 amended. `calculate_service_due` returns the INACTIVE record (status
INACTIVE, every other optional field unset) exactly when the rule is not
active at the current mileage; `is_active_at(start_miles)` is true **whenever
`start_miles < stop_miles`**; `is_active_at(stop_miles)` is false; and a rule
with `start_miles > stop_miles` is inactive at every mileage. -/
theorem C6_inactive_iff (v : Vehicle) (today : PyDate) (r : Rule) (d m : ℚ)
    (s : Bool) :
    ((v.calculate_service_due today r d m s =
        { rule := r, status := Status.inactive }) ↔
      r.is_active_at v.current_miles = false) ∧
    ((v.calculate_service_due today r d m s).status = Status.inactive →
      r.is_active_at v.current_miles = false) ∧
    (r.start_miles < r.stop_miles → r.is_active_at r.start_miles = true) ∧
    r.is_active_at r.stop_miles = false ∧
    (r.stop_miles < r.start_miles → ∀ mi : ℚ, r.is_active_at mi = false) := by
  have hni : r.is_active_at v.current_miles = true →
      (v.calculate_service_due today r d m s).status ≠ Status.inactive := by
    intro hact
    rw [calculate_service_due_active v today r d m s hact]
    exact dueStatus_ne_inactive _ _ _ _ _ _
  refine ⟨⟨?_, ?_⟩, ?_, ?_, ?_, ?_⟩
  · intro heq
    cases hb : r.is_active_at v.current_miles
    · rfl
    · exfalso
      apply hni hb
      rw [heq]
  · intro hina
    exact calculate_service_due_inactive v today r d m s hina
  · intro hs
    cases hb : r.is_active_at v.current_miles
    · rfl
    · exact absurd hs (hni hb)
  · intro hlt
    simp only [Rule.is_active_at, decide_eq_true_eq]
    exact ⟨le_rfl, hlt⟩
  · simp only [Rule.is_active_at, decide_eq_false_iff_not]
    rintro ⟨h1, h2⟩
    exact absurd h2 (lt_irrefl _)
  · intro hlt mi
    simp only [Rule.is_active_at, decide_eq_false_iff_not]
    rintro ⟨h1, h2⟩
    linarith

/-- C6 witness: an aftermarket-style rule starting at 60000 miles evaluated
at 50000 miles — the INACTIVE record, via the amended equivalence; and the
activation boundary at its (non-degenerate) start. -/
theorem C6_witness :
    c6wVehicle.calculate_service_due ⟨2025, 1, 1⟩ c6wRule 1000 1 false =
      { rule := c6wRule, status := Status.inactive } ∧
    c6wRule.is_active_at c6wRule.start_miles = true := by
  have H := C6_inactive_iff c6wVehicle ⟨2025, 1, 1⟩ c6wRule 1000 1 false
  exact ⟨H.1.mpr (by decide), H.2.2.1 (by decide)⟩

/-- C7. `get_last_service_for_item` returns `None` when no history entry's
rule key extends `"{item}/{verb}"` as a string prefix; otherwise it returns a
matching entry, and: when some matching entry carries a mileage, the result
carries a mileage and has the greatest `(date, mileage)` pair (date primary,
mileage tiebreaker) among matching entries with mileage; when no matching
entry carries a mileage, the result has the greatest date among all matches.
An entry logged under `"coolant/replace/initial"` always matches the
`("coolant", "replace")` lookup, regardless of any phase. -/
theorem C7_lookup (v : Vehicle) (item verb : String) :
    ((∀ h ∈ v.history, pyStartswith (item ++ "/" ++ verb) h.rule_key = false) →
      v.get_last_service_for_item item verb = none) ∧
    (∀ e, v.get_last_service_for_item item verb = some e →
      e ∈ v.history ∧ pyStartswith (item ++ "/" ++ verb) e.rule_key = true ∧
      ((∃ h ∈ v.history, pyStartswith (item ++ "/" ++ verb) h.rule_key = true ∧
          h.mileage.isSome = true) →
        e.mileage.isSome = true ∧
        ∀ h ∈ v.history, pyStartswith (item ++ "/" ++ verb) h.rule_key = true →
          h.mileage.isSome = true → dateMileLe h e) ∧
      ((∀ h ∈ v.history, pyStartswith (item ++ "/" ++ verb) h.rule_key = true →
          h.mileage = none) →
        ∀ h ∈ v.history, pyStartswith (item ++ "/" ++ verb) h.rule_key = true →
          dateLe h.date e.date)) ∧
    ((∃ h ∈ v.history, pyStartswith (item ++ "/" ++ verb) h.rule_key = true) →
      ∃ e, v.get_last_service_for_item item verb = some e) ∧
    (∀ h ∈ v.history, h.rule_key = "coolant/replace/initial" →
      pyStartswith ("coolant" ++ "/" ++ "replace") h.rule_key = true) := by
  have hdef : v.get_last_service_for_item item verb =
      (match v.history.filter
          (fun h => pyStartswith (item ++ "/" ++ verb) h.rule_key) with
      | [] => none
      | m :: ms =>
        match (v.history.filter
            (fun h => pyStartswith (item ++ "/" ++ verb) h.rule_key)).filter
            (fun h => h.mileage.isSome) with
        | [] => some (pyMax dateOnlyLt m ms)
        | w :: ws => some (pyMax dateMileLt w ws)) := rfl
  rcases hm : v.history.filter
      (fun h => pyStartswith (item ++ "/" ++ verb) h.rule_key) with _ | ⟨m0, ms⟩
  · -- no entry matches
    have hval : v.get_last_service_for_item item verb = none := by
      rw [hdef, hm]
    refine ⟨fun _ => hval, ?_, ?_, ?_⟩
    · intro e he
      rw [hval] at he
      exact absurd he (by simp)
    · rintro ⟨h, hmem, hpred⟩
      have : h ∈ v.history.filter
          (fun h => pyStartswith (item ++ "/" ++ verb) h.rule_key) :=
        List.mem_filter.mpr ⟨hmem, hpred⟩
      rw [hm] at this
      exact absurd this (by simp)
    · intro h _ hk
      rw [hk]
      decide
  · -- at least one entry matches
    have hmatch_sub : ∀ h, h ∈ m0 :: ms → h ∈ v.history ∧
        pyStartswith (item ++ "/" ++ verb) h.rule_key = true := by
      intro h hh
      rw [← hm] at hh
      exact List.mem_filter.mp hh
    have hmatch_mem : ∀ h ∈ v.history,
        pyStartswith (item ++ "/" ++ verb) h.rule_key = true → h ∈ m0 :: ms := by
      intro h hmem hpred
      rw [← hm]
      exact List.mem_filter.mpr ⟨hmem, hpred⟩
    have hnotall : ¬ (∀ h ∈ v.history,
        pyStartswith (item ++ "/" ++ verb) h.rule_key = false) := by
      intro hall
      have h0 := hmatch_sub m0 (List.mem_cons_self _ _)
      rw [hall m0 h0.1] at h0
      exact absurd h0.2 (by simp)
    rcases hw : (m0 :: ms).filter (fun h => h.mileage.isSome) with _ | ⟨w, ws⟩
    · -- no matching entry carries a mileage
      have hval : v.get_last_service_for_item item verb =
          some (pyMax dateOnlyLt m0 ms) := by
        rw [hdef, hm]
        simp only [hw]
      refine ⟨fun hall => absurd hall hnotall, ?_, ?_, ?_⟩
      · intro e he
        rw [hval] at he
        have he' : pyMax dateOnlyLt m0 ms = e := by simpa using he
        subst he'
        have hememb := hmatch_sub _ (pyMax_mem dateOnlyLt m0 ms)
        refine ⟨hememb.1, hememb.2, ?_, ?_⟩
        · rintro ⟨h, hmem, hpred, hsome⟩
          have : h ∈ (m0 :: ms).filter (fun h => h.mileage.isSome) :=
            List.mem_filter.mpr ⟨hmatch_mem h hmem hpred, hsome⟩
          rw [hw] at this
          exact absurd this (by simp)
        · intro _ h hmem hpred
          have hh := hmatch_mem h hmem hpred
          have := pyMax_not_lt dateOnlyLt dateOnlyLt_irrefl dateOnlyLt_trans
            dateOnlyLt_trans2 m0 ms h hh
          exact (not_dateLt_iff h.date (pyMax dateOnlyLt m0 ms).date).mp this
      · intro _
        exact ⟨_, hval⟩
      · intro h _ hk
        rw [hk]
        decide
    · -- some matching entry carries a mileage
      have hval : v.get_last_service_for_item item verb =
          some (pyMax dateMileLt w ws) := by
        rw [hdef, hm]
        simp only [hw]
      have hwsub : ∀ h, h ∈ w :: ws → h ∈ m0 :: ms ∧ h.mileage.isSome = true := by
        intro h hh
        rw [← hw] at hh
        exact List.mem_filter.mp hh
      have hwmem : ∀ h, h ∈ m0 :: ms → h.mileage.isSome = true → h ∈ w :: ws := by
        intro h hmem hsome
        rw [← hw]
        exact List.mem_filter.mpr ⟨hmem, hsome⟩
      refine ⟨fun hall => absurd hall hnotall, ?_, ?_, ?_⟩
      · intro e he
        rw [hval] at he
        have he' : pyMax dateMileLt w ws = e := by simpa using he
        subst he'
        have hein := hwsub _ (pyMax_mem dateMileLt w ws)
        have hememb := hmatch_sub _ hein.1
        refine ⟨hememb.1, hememb.2, ?_, ?_⟩
        · intro _
          refine ⟨hein.2, ?_⟩
          intro h hmem hpred hsome
          have hh := hwmem h (hmatch_mem h hmem hpred) hsome
          have := pyMax_not_lt dateMileLt dateMileLt_irrefl dateMileLt_trans
            dateMileLt_trans2 w ws h hh
          exact (not_dateMileLt_iff h (pyMax dateMileLt w ws)).mp this
        · intro hnone
          exfalso
          have hwin := hwsub w (List.mem_cons_self _ _)
          have hwmatch := hmatch_sub w hwin.1
          have := hnone w hwmatch.1 hwmatch.2
          rw [this] at hwin
          exact absurd hwin.2 (by simp)
      · intro _
        exact ⟨_, hval⟩
      · intro h _ hk
        rw [hk]
        decide

/-- C7 witness: among two lifecycle-phased coolant entries and an unrelated
brakes entry, the `("coolant", "replace")` lookup returns the phase
`"ongoing"` entry, which matches, carries a mileage, and dominates the
`"initial"` entry's `(date, mileage)` pair. -/
theorem C7_witness :
    c7Vehicle.get_last_service_for_item "coolant" "replace" = some c7Entry2 ∧
    c7Entry2 ∈ c7Vehicle.history ∧
    pyStartswith ("coolant" ++ "/" ++ "replace") c7Entry2.rule_key = true ∧
    c7Entry2.mileage.isSome = true ∧
    dateMileLe c7Entry1 c7Entry2 := by
  have hval : c7Vehicle.get_last_service_for_item "coolant" "replace" =
      some c7Entry2 := by decide
  have H := (C7_lookup c7Vehicle "coolant" "replace").2.1 c7Entry2 hval
  obtain ⟨hmem, hpred, hex, _⟩ := H
  have hx := hex ⟨c7Entry1, by decide, by decide, by decide⟩
  exact ⟨hval, hmem, hpred, hx.1, hx.2 c7Entry1 (by decide) (by decide) (by decide)⟩

/-- C8. For every rule active at the current mileage whose selected mileage
interval is absent and whose due date computes to `None`, the status is
UNKNOWN; `calc_due_date` returns `None` whenever either input is absent (no
zero-point fallback for time); in particular a rule with only
`interval_months` and no matching history entry yields UNKNOWN. -/
theorem C8_unknown (v : Vehicle) (today : PyDate) (r : Rule) (d m : ℚ)
    (s : Bool)
    (hact : r.is_active_at v.current_miles = true)
    (hmi : selIntervalMiles r s = none)
    (hdd : calc_due_date
      ((v.get_last_service_for_item r.item r.verb).map (·.date))
      (selIntervalMonths r s) = none) :
    (v.calculate_service_due today r d m s).status = Status.unknown ∧
    (∀ (ld : Option PyDate) (im : Option ℚ), (ld = none ∨ im = none) →
      calc_due_date ld im = none) ∧
    (r.interval_miles = none → r.severe_interval_miles = none →
      v.get_last_service_for_item r.item r.verb = none →
      (v.calculate_service_due today r d m s).status = Status.unknown) := by
  have hnone : ∀ (ld : Option PyDate) (im : Option ℚ), (ld = none ∨ im = none) →
      calc_due_date ld im = none := by
    intro ld im h
    rcases h with rfl | rfl
    · cases im <;> rfl
    · cases ld <;> rfl
  refine ⟨?_, hnone, ?_⟩
  · rw [calculate_service_due_active v today r d m s hact]
    simp only [hmi, hdd, calc_due_miles]
    simp [dueStatus]
  · intro h1 h2 hglsfi
    rw [calculate_service_due_active v today r d m s hact]
    have hsel : selIntervalMiles r s = none := by
      cases s <;> simp [selIntervalMiles, pyOr, h1, h2]
    have hdd2 : calc_due_date
        ((v.get_last_service_for_item r.item r.verb).map (·.date))
        (selIntervalMonths r s) = none := by
      rw [hglsfi]
      exact hnone _ _ (Or.inl rfl)
    simp only [hsel, hdd2, calc_due_miles]
    simp [dueStatus]

/-- C8 witness: a time-only rule (12-month interval, no mileage interval)
with no history — due date is uncomputable and the status is UNKNOWN. -/
theorem C8_witness :
    (c8Vehicle.calculate_service_due ⟨2025, 1, 1⟩ c8Rule 1000 1 false).status =
      Status.unknown :=
  (C8_unknown c8Vehicle ⟨2025, 1, 1⟩ c8Rule 1000 1 false (by decide) (by decide)
    (by decide)).1

/-- C9. When `severe_interval_miles` is unset, severe mode produces the same
`due_miles` as normal mode (the `or`-fallback selects the normal interval);
symmetrically, when `severe_interval_months` is unset, `due_date` is
unchanged. -/
theorem C9_severe_fallback (v : Vehicle) (today : PyDate) (r : Rule)
    (d m : ℚ) :
    (r.severe_interval_miles = none →
      (v.calculate_service_due today r d m true).due_miles =
        (v.calculate_service_due today r d m false).due_miles) ∧
    (r.severe_interval_months = none →
      (v.calculate_service_due today r d m true).due_date =
        (v.calculate_service_due today r d m false).due_date) := by
  cases hact : r.is_active_at v.current_miles
  · rw [calculate_service_due_inactive v today r d m true hact,
      calculate_service_due_inactive v today r d m false hact]
    exact ⟨fun _ => rfl, fun _ => rfl⟩
  · rw [calculate_service_due_active v today r d m true hact,
      calculate_service_due_active v today r d m false hact]
    constructor
    · intro h
      have hsel : selIntervalMiles r true = selIntervalMiles r false := by
        simp [selIntervalMiles, pyOr, h]
      simp only [hsel]
    · intro h
      have hsel : selIntervalMonths r true = selIntervalMonths r false := by
        simp [selIntervalMonths, pyOr, h]
      simp only [hsel]

/-- C9 witness: a rule with a severe months override but no severe miles
override — `due_miles` agrees between severe and normal evaluation. -/
theorem C9_witness :
    (c9Vehicle.calculate_service_due ⟨2024, 9, 1⟩ c9Rule 1000 1 true).due_miles =
      (c9Vehicle.calculate_service_due ⟨2024, 9, 1⟩ c9Rule 1000 1 false).due_miles :=
  (C9_severe_fallback c9Vehicle ⟨2024, 9, 1⟩ c9Rule 1000 1).1 (by decide)

/-- C10. `get_last_service_for_item` matches on a raw string prefix with no
separator or end-of-string requirement after `"{item}/{verb}"`: the lookup
misses exactly when no entry's rule key extends the base key as a string, the
base key `"oil/replace"` is a prefix of both `"oil/replaced"` and
`"oil/replacement hose/inspect"`, and an entry logged as `"oil/replaced"` is
selected and fed into `calculate_service_due` as the last service for the
`oil/replace` rule. -/
theorem C10_rawPrefixMatching (v : Vehicle) (item verb : String) :
    (v.get_last_service_for_item item verb = none ↔
      ∀ h ∈ v.history, pyStartswith (item ++ "/" ++ verb) h.rule_key = false) ∧
    pyStartswith ("oil" ++ "/" ++ "replace") "oil/replaced" = true ∧
    pyStartswith ("oil" ++ "/" ++ "replace") "oil/replacement hose/inspect" = true ∧
    c10Vehicle.get_last_service_for_item "oil" "replace" = some c10Entry ∧
    (c10Vehicle.calculate_service_due ⟨2024, 8, 1⟩ c10Rule 1000 1 false).last_service_miles =
      some 50000 ∧
    (c10Vehicle.calculate_service_due ⟨2024, 8, 1⟩ c10Rule 1000 1 false).due_miles =
      some (50000 + 7500) := by
  have hdef : v.get_last_service_for_item item verb =
      (match v.history.filter
          (fun h => pyStartswith (item ++ "/" ++ verb) h.rule_key) with
      | [] => none
      | m :: ms =>
        match (v.history.filter
            (fun h => pyStartswith (item ++ "/" ++ verb) h.rule_key)).filter
            (fun h => h.mileage.isSome) with
        | [] => some (pyMax dateOnlyLt m ms)
        | w :: ws => some (pyMax dateMileLt w ws)) := rfl
  refine ⟨?_, by decide, by decide, by decide, ?_, ?_⟩
  · constructor
    · intro hnone h hmem
      cases hpred : pyStartswith (item ++ "/" ++ verb) h.rule_key
      · rfl
      · exfalso
        have hin : h ∈ v.history.filter
            (fun h => pyStartswith (item ++ "/" ++ verb) h.rule_key) :=
          List.mem_filter.mpr ⟨hmem, hpred⟩
        rcases hm : v.history.filter
            (fun h => pyStartswith (item ++ "/" ++ verb) h.rule_key) with _ | ⟨m0, ms⟩
        · rw [hm] at hin
          exact absurd hin (by simp)
        · rw [hdef, hm] at hnone
          rcases hw : (m0 :: ms).filter (fun h => h.mileage.isSome) with _ | ⟨w, ws⟩ <;>
            simp only [hw] at hnone <;> exact absurd hnone (by simp)
    · intro hall
      rcases hm : v.history.filter
          (fun h => pyStartswith (item ++ "/" ++ verb) h.rule_key) with _ | ⟨m0, ms⟩
      · rw [hdef, hm]
      · exfalso
        have h0 : m0 ∈ v.history.filter
            (fun h => pyStartswith (item ++ "/" ++ verb) h.rule_key) := by
          rw [hm]; exact List.mem_cons_self _ _
        have h0' := List.mem_filter.mp h0
        rw [hall m0 h0'.1] at h0'
        exact absurd h0'.2 (by simp)
  · simp only [c10Vehicle, c10Rule, c10Entry, stockCar,
      Vehicle.calculate_service_due, Vehicle.current_miles, Vehicle.as_of_date,
      Vehicle.get_last_service_for_item, selIntervalMiles, selIntervalMonths,
      calc_due_miles, calc_due_date, dueStatus, milesRemainingOf, check_status,
      pyInt, pyOr, pyStartswith, pyMax, dateMileLt, dateOnlyLt, dateLt,
      Rat.add_def', Rat.sub_def', Rat.mul_def, Rat.normalize_eq_mkRat]
    decide
  · simp only [c10Vehicle, c10Rule, c10Entry, stockCar,
      Vehicle.calculate_service_due, Vehicle.current_miles, Vehicle.as_of_date,
      Vehicle.get_last_service_for_item, selIntervalMiles, selIntervalMonths,
      calc_due_miles, calc_due_date, dueStatus, milesRemainingOf, check_status,
      pyInt, pyOr, pyStartswith, pyMax, dateMileLt, dateOnlyLt, dateLt,
      Rat.add_def', Rat.sub_def', Rat.mul_def, Rat.normalize_eq_mkRat]
    decide

/-- C10 witness: a vehicle whose only entry is under an unrelated key — the
lookup returns `None` via the equivalence of the main theorem. -/
theorem C10_witness :
    c10bVehicle.get_last_service_for_item "oil" "replace" = none :=
  (C10_rawPrefixMatching c10bVehicle "oil" "replace").1.mpr (by decide)

end MaintSchedule
